import Mathlib

/-!
Verification of the SillyTavern-Preset-Analyzer rule engine.

Shallow embedding of the core analyzer (analyzer.js and the rules/ modules:
macro-placement, prompt-ordering, token-thresholds, injection-depth,
provider-specific).  JS strings are Lean `String`s; a JS value that may be
`null`/`undefined` is an `Option`; a JS number used as an integer is `Nat`
or `Int`.  JS float comparisons on exact integer quotients
(`entryIndex / totalEntries < 0.4`, `estimatedTokens / threshold >= 0.9`)
are rendered as the equivalent exact integer comparisons
(`5 * i < 2 * total`, `10 * est >= 9 * threshold`); for the operand ranges
involved the double-precision comparison and the exact rational comparison
agree, and the exact rational quotient is recorded in the finding metadata.
Cosmetic prose fields of findings (title, description, recommendation) are
not modelled; the structured fields (id, rule, severity, affectedEntry,
provider, meta) are.  JS object-literal property lookup is modelled as
finite-map lookup (no prototype chain).
-/

/-- Severity of a finding: `critical`, `warning` or `info`. -/
inductive Severity where
  | critical
  | warning
  | info
deriving DecidableEq

/-- Structured `meta` payload of a finding, one constructor per rule
(provider-specific has one per provider branch).  Field order follows the
object literals in the source. -/
inductive Meta where
  | placement (found : String) (position : Nat) (totalEntries : Nat) (positionPercent : ℚ)
  | ordering (volatilePosition : Nat) (stableEntriesAfter : Nat) (stableIdentifiers : List String)
  | thresholds (estimatedTokens : Nat) (threshold : Nat) (deficit : ℤ) (ratio : ℚ)
  | injection (depth : ℤ) (injectionPosition : ℤ) (hasDynamicContent : Bool)
  | anthropicSquash (systemPromptCount : Nat) (squashEnabled : Bool)
  | openaiAlignment (estimatedTokens : Nat) (remainder : Nat) (paddingNeeded : Nat)
  | googleThreshold (estimatedTokens : Nat) (threshold : Nat) (deficit : ℤ)
deriving DecidableEq

/-- One diagnosed issue.  `affectedEntry` is an identifier or the sentinel
"all"; `provider` is "all" or a provider name. -/
structure Finding where
  id : String
  rule : String
  severity : Severity
  affectedEntry : String
  provider : String
  meta : Meta
deriving DecidableEq

/-- A prompt entry of the preset.  Absent/empty `content`, `name` and `role`
behave identically in every code path used, so both are modelled as `""`;
`injection_position` and `injection_depth` are `none` when null/undefined. -/
structure Prompt where
  identifier : String
  name : String
  content : String
  enabled : Bool
  role : String
  injection_position : Option ℤ
  injection_depth : Option ℤ
deriving DecidableEq

/-- An order record of `prompt_order` after unwrapping. -/
structure OrderRec where
  identifier : String
  enabled : Bool
deriving DecidableEq

/-- A raw element of `prompt_order`: either a plain order record
(`order = none`) or the per-character wrapper carrying an `order` array
(a present-but-empty array is truthy in JS, hence `some []` unwraps). -/
structure OrderElem where
  identifier : String
  enabled : Bool
  order : Option (List OrderRec)
deriving DecidableEq

/-- The preset.  `none` fields model absent/null `prompts` / `prompt_order`
(note `[]` is truthy in JS, so an empty array is `some []`, which passes the
guards).  `squash_system_messages` is compared with `=== true` in the
source, hence `Option Bool`. -/
structure Preset where
  prompts : Option (List Prompt)
  prompt_order : Option (List OrderElem)
  squash_system_messages : Option Bool
deriving DecidableEq

/-- Analyzer options: `provider` and `tokenizer`, both optional. -/
structure Options where
  provider : Option String
  tokenizer : Option (String → Nat)

/-- Severity counts of an analysis result. -/
structure Summary where
  critical : Nat
  warning : Nat
  info : Nat
deriving DecidableEq

/-- Result of `analyze`. -/
structure AnalysisResult where
  findings : List Finding
  score : ℤ
  summary : Summary
deriving DecidableEq

/-- Mirrors `let orderArray = preset.prompt_order; if (Array.isArray(orderArray)
&& orderArray.length > 0 && orderArray[0].order) orderArray = orderArray[0].order;`
— when the first element carries a (truthy) `order` field, unwrap to it;
otherwise the elements themselves are the order records. -/
def getOrderArray (po : List OrderElem) : List OrderRec :=
  match po with
  | [] => []
  | e :: rest =>
    match e.order with
    | some inner => inner
    | none => (e :: rest).map (fun x => ⟨x.identifier, x.enabled⟩)

/-- Mirrors `const promptMap = {}; for (const p of preset.prompts)
promptMap[p.identifier] = p;` followed by `promptMap[id]` — the last prompt
with a given identifier wins. -/
def promptMapLookup (prompts : List Prompt) (id : String) : Option Prompt :=
  prompts.foldl (fun acc p => if p.identifier = id then some p else acc) none

/-- Mirrors `const prompt = promptMap[entry.identifier]; const content =
prompt ? prompt.content : '';`. -/
def contentOf (prompts : List Prompt) (id : String) : String :=
  match promptMapLookup prompts id with
  | some p => p.content
  | none => ""

/-- The alternation of the dynamic-macro regex
`\{\{(random|roll|time|date|weekday|isotime|isodate|idle_duration|time_UTC)(::|\}\})`,
in source order (JS tries alternatives left to right). -/
def DYNAMIC_MACRO_NAMES : List String :=
  ["random", "roll", "time", "date", "weekday", "isotime", "isodate",
   "idle_duration", "time_UTC"]

/-- Case-insensitive test that the text (second argument) starts with the
pattern (first argument); the regex `i` flag canonicalizes ASCII case on
both sides. -/
def ciStartsWith : List Char → List Char → Bool
  | [], _ => true
  | _ :: _, [] => false
  | p :: ps, c :: cs => (c.toLower = p.toLower) && ciStartsWith ps cs

/-- Test for the closing group `(::|\}\})` at the head of the text.  The
delimiter characters have no case, so literal comparison is exact. -/
def delimAt (cs : List Char) : Bool :=
  match cs with
  | a :: b :: _ => (a = ':' && b = ':') || (a = '}' && b = '}')
  | _ => false

/-- After the literal `{{`, the first alternative (in regex order) that
matches case-insensitively and is followed by `::` or `}}`. -/
def findNameAt (cs : List Char) : Option String :=
  DYNAMIC_MACRO_NAMES.find? (fun n => ciStartsWith n.toList cs && delimAt (cs.drop n.length))

/-- A regex match attempt anchored at the head of the text: on success,
returns the input slice captured by group 1 (the macro name as written in
the input, since JS `match[1]` preserves input case). -/
def matchCapture (cs : List Char) : Option (List Char) :=
  match cs with
  | a :: b :: rest =>
    if a = '{' ∧ b = '{' then
      match findNameAt rest with
      | some n => some (rest.take n.length)
      | none => none
    else none
  | _ => none

/-- Unanchored existence of a match, mirroring `DYNAMIC_MACRO_REGEX.test(content)`
after `lastIndex = 0` (every call starts a fresh scan). -/
def regexTest : List Char → Bool
  | [] => false
  | c :: t => (matchCapture (c :: t)).isSome || regexTest t

/-- Fuel-indexed scan mirroring the `while ((match = DYNAMIC_MACRO_REGEX.exec(content)))`
loop with the `g` flag: after a match the scan resumes at the end of the
match (group-1 capture plus the four delimiter characters).  Fuel is the
list length, which bounds the number of steps. -/
def scanCapturesAux : Nat → List Char → List (List Char)
  | 0, _ => []
  | _, [] => []
  | fuel + 1, c :: t =>
    match matchCapture (c :: t) with
    | some cap => cap :: scanCapturesAux fuel ((c :: t).drop (cap.length + 4))
    | none => scanCapturesAux fuel t

/-- All group-1 captures of the exec loop, in scan order. -/
def scanCaptures (cs : List Char) : List (List Char) :=
  scanCapturesAux cs.length cs

/-- Mirrors `hasDynamicMacros` of rules/injection-depth.js:
`if (!content) return false; DYNAMIC_MACRO_REGEX.lastIndex = 0;
return DYNAMIC_MACRO_REGEX.test(content);`. -/
def hasDynamicMacros (content : String) : Bool :=
  if content = "" then false else regexTest content.toList

/-- The fixed identifier set of inherently volatile entries. -/
def VOLATILE_IDENTIFIERS : List String :=
  ["chatHistory", "dialogueExamples"]

/-- Mirrors `isVolatile` of rules/prompt-ordering.js (identical copies live
in token-thresholds.js and provider-specific.js): identifier allowlist,
then the dynamic-macro regex on truthy content.  Pure function of its two
arguments. -/
def isVolatile (identifier content : String) : Bool :=
  if VOLATILE_IDENTIFIERS.contains identifier then true
  else if content ≠ "" then regexTest content.toList
  else false

/-- Mirrors `defaultTokenizer(text) { return Math.ceil(text.length / 4); }`,
rendered exactly over ℕ: `(len + 3) / 4 = ⌈len / 4⌉`. -/
def defaultTokenizer (text : String) : Nat :=
  (text.length + 3) / 4

/-- Mirrors `const provider = options.provider || 'anthropic';` (the empty
string is falsy in JS). -/
def effectiveProvider (options : Options) : String :=
  match options.provider with
  | none => "anthropic"
  | some s => if s = "" then "anthropic" else s

/-- The `THRESHOLDS` table of rules/token-thresholds.js as a finite map. -/
def THRESHOLDS (provider : String) : Option Nat :=
  if provider = "anthropic" then some 1024
  else if provider = "openai" then some 1024
  else if provider = "google" then some 4096
  else none

/-- The stable-content computation inlined in `checkTokenThresholds`
(rules/token-thresholds.js): over the enabled order entries, keep the
content of each entry that is not volatile and has truthy content, join
with a newline, and apply the tokenizer.  Extracted as a named definition
(used verbatim by `checkTokenThresholds` below) so theorems can refer to it. -/
def tokenThresholdsEstimate (prompts : List Prompt) (po : List OrderElem)
    (tokenizer : String → Nat) : Nat :=
  let enabledEntries := (getOrderArray po).filter (fun e => e.enabled)
  let stableContent := enabledEntries.filterMap (fun entry =>
    let content := contentOf prompts entry.identifier
    if !(isVolatile entry.identifier content) then
      (if content ≠ "" then some content else none)
    else none)
  tokenizer (String.intercalate "\n" stableContent)

/-- Mirrors `checkTokenThresholds(preset, options)` of rules/token-thresholds.js.
`THRESHOLDS[provider] || THRESHOLDS.anthropic` is the map lookup with
anthropic fallback (all stored values are truthy).  The float comparisons
`ratio >= 0.9` / `ratio >= 0.8` on `ratio = estimatedTokens / threshold`
are rendered exactly as `10 * est >= 9 * threshold` / `10 * est >= 8 * threshold`;
both sub-0.9 branches yield `info`, as in the source.  The exact rational
ratio is recorded in the meta. -/
def checkTokenThresholds (preset? : Option Preset) (options : Options) : List Finding :=
  match preset? with
  | none => []
  | some preset =>
    match preset.prompts, preset.prompt_order with
    | some prompts, some po =>
      let provider := effectiveProvider options
      let threshold := (THRESHOLDS provider).getD 1024
      let tokenizer := options.tokenizer.getD defaultTokenizer
      let estimatedTokens := tokenThresholdsEstimate prompts po tokenizer
      if threshold ≤ estimatedTokens then []
      else
        let severity :=
          if 9 * threshold ≤ 10 * estimatedTokens then Severity.warning
          else if 8 * threshold ≤ 10 * estimatedTokens then Severity.info
          else Severity.info
        [⟨"token-thresholds-" ++ provider, "token-thresholds", severity, "all", provider,
          Meta.thresholds estimatedTokens threshold ((threshold : ℤ) - (estimatedTokens : ℤ))
            ((estimatedTokens : ℚ) / (threshold : ℚ))⟩]
    | _, _ => []

/-- Body of the `for (let entryIndex ...)` loop of `checkMacroPlacement`
(rules/macro-placement.js), extracted as a named definition: at one index,
scan the entry's content with the exec loop; each match yields one finding
whose severity is `critical` at position 0, `warning` when
`positionPercent < 0.4` (rendered exactly as
`5 * entryIndex < 2 * totalEntries`), else `info`. -/
def placementFindingsAt (prompts : List Prompt) (enabledEntries : List OrderRec)
    (entryIndex : Nat) : List Finding :=
  let totalEntries := enabledEntries.length
  match enabledEntries.get? entryIndex with
  | none => []
  | some entry =>
    match promptMapLookup prompts entry.identifier with
    | none => []
    | some prompt =>
      if prompt.content = "" then []
      else
        (scanCaptures prompt.content.toList).enum.map (fun mc =>
          let severity :=
            if entryIndex = 0 then Severity.critical
            else if 5 * entryIndex < 2 * totalEntries then Severity.warning
            else Severity.info
          ⟨"macro-placement-" ++ toString entryIndex ++ "-" ++ toString mc.1,
           "macro-placement", severity, entry.identifier, "all",
           Meta.placement (String.mk ('{' :: '{' :: (mc.2 ++ ['}', '}'])))
             entryIndex totalEntries ((entryIndex : ℚ) / (totalEntries : ℚ))⟩)

/-- Mirrors `checkMacroPlacement(preset, options)` itself: guards, unwrap,
filter to enabled entries, early return on zero entries, then the index
loop. -/
def checkMacroPlacement (preset? : Option Preset) (options : Options) : List Finding :=
  match preset? with
  | none => []
  | some preset =>
    match preset.prompts, preset.prompt_order with
    | some prompts, some po =>
      let enabledEntries := (getOrderArray po).filter (fun e => e.enabled)
      let totalEntries := enabledEntries.length
      if totalEntries = 0 then []
      else
        (List.range totalEntries).flatMap (placementFindingsAt prompts enabledEntries)
    | _, _ => []

/-- Classification record of checkPromptOrdering (`{ entry, prompt, index,
volatile }`; the index is the list position). -/
structure ClassifiedEntry where
  entry : OrderRec
  prompt : Option Prompt
  volatile : Bool
deriving DecidableEq

/-- Body of the `for (let i ...)` loop of `checkPromptOrdering`
(rules/prompt-ordering.js), extracted as a named definition: at one index,
skip a stable entry; for a volatile one, collect the stable entries after
it (the inner `j` loop) and flag it with a `warning` finding when there
are two or more. -/
def orderingFindingAt (classified : List ClassifiedEntry) (i : Nat) : Option Finding :=
  match classified.get? i with
  | none => none
  | some ci =>
    if ci.volatile then
      let stableAfter := (classified.drop (i + 1)).filter (fun c => !c.volatile)
      if stableAfter.length < 2 then none
      else
        some ⟨"prompt-ordering-" ++ toString i, "prompt-ordering", Severity.warning,
              ci.entry.identifier, "all",
              Meta.ordering i stableAfter.length
                (stableAfter.map (fun s => s.entry.identifier))⟩
    else none

/-- Mirrors the classification step of `checkPromptOrdering`:
`enabledEntries.map((entry, index) => { ... isVolatile ... })`. -/
def classifyEntries (prompts : List Prompt) (enabledEntries : List OrderRec) :
    List ClassifiedEntry :=
  enabledEntries.map (fun entry =>
    let prompt := promptMapLookup prompts entry.identifier
    let content := match prompt with | some p => p.content | none => ""
    ⟨entry, prompt, isVolatile entry.identifier content⟩)

/-- Mirrors `checkPromptOrdering(preset, options)` of rules/prompt-ordering.js:
classify the enabled entries, then for each volatile entry count the stable
entries after it and flag it (severity `warning`) when there are two or
more. -/
def checkPromptOrdering (preset? : Option Preset) (options : Options) : List Finding :=
  match preset? with
  | none => []
  | some preset =>
    match preset.prompts, preset.prompt_order with
    | some prompts, some po =>
      let enabledEntries := (getOrderArray po).filter (fun e => e.enabled)
      if enabledEntries.length = 0 then []
      else
        let classified := classifyEntries prompts enabledEntries
        (List.range classified.length).filterMap (orderingFindingAt classified)
    | _, _ => []

/-- Mirrors `checkInjectionDepth(preset, options)` of rules/injection-depth.js:
one finding per enabled, in-sequence prompt with `injection_position === 1`
and a non-null depth `< 4`; severity from the depth/dynamic-content table. -/
def checkInjectionDepth (preset? : Option Preset) (options : Options) : List Finding :=
  match preset? with
  | none => []
  | some preset =>
    match preset.prompts, preset.prompt_order with
    | some prompts, some po =>
      let enabledIdentifiers :=
        ((getOrderArray po).filter (fun e => e.enabled)).map (fun e => e.identifier)
      prompts.filterMap (fun prompt =>
        if !prompt.enabled then none
        else if !(enabledIdentifiers.contains prompt.identifier) then none
        else if prompt.injection_position ≠ some 1 then none
        else
          match prompt.injection_depth with
          | none => none
          | some depth =>
            if 4 ≤ depth then none
            else
              let isDynamic := hasDynamicMacros prompt.content
              let severity :=
                if depth ≤ 1 ∧ isDynamic then Severity.critical
                else if depth ≤ 1 then Severity.warning
                else if isDynamic then Severity.warning
                else Severity.info
              some ⟨"injection-depth-" ++ prompt.identifier, "injection-depth", severity,
                    prompt.identifier, "all", Meta.injection depth 1 isDynamic⟩)
    | _, _ => []

/-- Mirrors `getStablePrefixTokens(preset, tokenizer)` of
rules/provider-specific.js (the preset's `prompts` and `prompt_order` are
accessed without guards there, so they are taken as present here). -/
def getStablePrefixTokens (prompts : List Prompt) (po : List OrderElem)
    (tokenizer : String → Nat) : Nat :=
  let enabledEntries := (getOrderArray po).filter (fun e => e.enabled)
  let stableContent := enabledEntries.filterMap (fun entry =>
    let content := contentOf prompts entry.identifier
    if !(isVolatile entry.identifier content) && content ≠ "" then some content
    else none)
  tokenizer (String.intercalate "\n" stableContent)

/-- Mirrors `checkAnthropic(preset, options)`: more than one enabled,
in-sequence system prompt yields one finding, `info` when
`squash_system_messages === true`, `warning` otherwise. -/
def checkAnthropic (prompts : List Prompt) (po : List OrderElem)
    (squash : Option Bool) (options : Options) : List Finding :=
  let enabledIdentifiers :=
    ((getOrderArray po).filter (fun e => e.enabled)).map (fun e => e.identifier)
  let systemPrompts := prompts.filter (fun p =>
    p.enabled && p.role == "system" && enabledIdentifiers.contains p.identifier)
  if 1 < systemPrompts.length then
    if squash = some true then
      [⟨"provider-specific-anthropic-squash-on", "provider-specific", Severity.info,
        "all", "anthropic", Meta.anthropicSquash systemPrompts.length true⟩]
    else
      [⟨"provider-specific-anthropic-squash-off", "provider-specific", Severity.warning,
        "all", "anthropic", Meta.anthropicSquash systemPrompts.length false⟩]
  else []

/-- Mirrors `checkOpenAI(preset, options)`: an `info` finding when the
stable-prefix estimate is not a multiple of 128. -/
def checkOpenAI (prompts : List Prompt) (po : List OrderElem)
    (options : Options) : List Finding :=
  let tokenizer := options.tokenizer.getD defaultTokenizer
  let estimatedTokens := getStablePrefixTokens prompts po tokenizer
  let remainder := estimatedTokens % 128
  if remainder ≠ 0 then
    [⟨"provider-specific-openai-alignment", "provider-specific", Severity.info,
      "all", "openai", Meta.openaiAlignment estimatedTokens remainder (128 - remainder)⟩]
  else []

/-- Mirrors `checkGoogle(preset, options)`: a `warning` finding when the
stable-prefix estimate is below the 4096-token threshold. -/
def checkGoogle (prompts : List Prompt) (po : List OrderElem)
    (options : Options) : List Finding :=
  let tokenizer := options.tokenizer.getD defaultTokenizer
  let estimatedTokens := getStablePrefixTokens prompts po tokenizer
  if estimatedTokens < 4096 then
    [⟨"provider-specific-google-threshold", "provider-specific", Severity.warning,
      "all", "google", Meta.googleThreshold estimatedTokens 4096
        ((4096 : ℤ) - (estimatedTokens : ℤ))⟩]
  else []

/-- Mirrors `checkProviderSpecific(preset, options)`: guards, then
`if (!provider) return findings;` (absent or empty string), then dispatch
on the three known providers; anything else yields no findings. -/
def checkProviderSpecific (preset? : Option Preset) (options : Options) : List Finding :=
  match preset? with
  | none => []
  | some preset =>
    match preset.prompts, preset.prompt_order with
    | some prompts, some po =>
      match options.provider with
      | none => []
      | some provider =>
        if provider = "" then []
        else if provider = "anthropic" then
          checkAnthropic prompts po preset.squash_system_messages options
        else if provider = "openai" then checkOpenAI prompts po options
        else if provider = "google" then checkGoogle prompts po options
        else []
    | _, _ => []

/-- Mirrors `calculateScore(findings)` of analyzer.js: fold a switch over
the severities starting from 100, then clamp once with
`Math.max(0, Math.min(100, score))`. -/
def calculateScore (findings : List Finding) : ℤ :=
  let score := findings.foldl (fun score f =>
    match f.severity with
    | Severity.critical => score - 20
    | Severity.warning => score - 10
    | Severity.info => score - 3) (100 : ℤ)
  max 0 (min 100 score)

/-- Mirrors `findings.filter(f => f.severity === s).length` of the summary
computation in `analyze`. -/
def countSeverity (s : Severity) (findings : List Finding) : Nat :=
  (findings.filter (fun f => decide (f.severity = s))).length

/-- Mirrors `analyze(preset, options)` of analyzer.js: concatenate the five
rules' findings in source order, compute the score and the severity
summary. -/
def analyze (preset? : Option Preset) (options : Options) : AnalysisResult :=
  let findings :=
    checkMacroPlacement preset? options ++ checkPromptOrdering preset? options ++
    checkTokenThresholds preset? options ++ checkInjectionDepth preset? options ++
    checkProviderSpecific preset? options
  ⟨findings, calculateScore findings,
   ⟨countSeverity Severity.critical findings, countSeverity Severity.warning findings,
    countSeverity Severity.info findings⟩⟩

/-- Position tag of a macro-placement finding (the `meta.position` field),
used to group findings by order-entry index. -/
def Finding.placementPos (f : Finding) : Option Nat :=
  match f.meta with
  | Meta.placement _ p _ _ => some p
  | _ => none

/-- Position tag of a prompt-ordering finding (the `meta.volatilePosition`
field). -/
def Finding.orderingPos (f : Finding) : Option Nat :=
  match f.meta with
  | Meta.ordering p _ _ => some p
  | _ => none

/-- Spec-side characterization (§4.2 of the spec) of "content contains a
case-insensitive occurrence of a dynamic macro": somewhere in the text
there is a literal `{{`, then (case-insensitively) one of the dynamic
macro names, then `::` or `}}`.  The delimiter characters have no case, so
the case-insensitivity bears on the name. -/
def IsDynamicOccurrence (s : String) : Prop :=
  ∃ pre name nameChars delim rest,
    name ∈ DYNAMIC_MACRO_NAMES ∧
    nameChars.map Char.toLower = name.toList.map Char.toLower ∧
    (delim = [':', ':'] ∨ delim = ['}', '}']) ∧
    s.toList = pre ++ ('{' :: '{' :: (nameChars ++ (delim ++ rest)))

/-- Spec-side definition (§4.5 of the spec, referenced by §4.7) of the
stable prefix: "concatenating (with a newline separator) the content of
every enabled, non-volatile entry that has non-empty content, in order". -/
def stablePrefixSpec (prompts : List Prompt) (po : List OrderElem) : String :=
  String.intercalate "\n"
    (((getOrderArray po).filter (fun e => e.enabled)).filterMap (fun e =>
      let c := contentOf prompts e.identifier
      if isVolatile e.identifier c = false ∧ c ≠ "" then some c else none))

/-! Helper lemmas for the score computation. -/

/-- Helper: one step of the severity count. -/
lemma countSeverity_cons (s : Severity) (f : Finding) (l : List Finding) :
    countSeverity s (f :: l) = countSeverity s l + (if f.severity = s then 1 else 0) := by
  simp only [countSeverity, List.filter_cons]
  split
  · split
    · simp [List.length_cons]
    · simp_all
  · split
    · simp_all
    · simp

/-- Helper: the fold of `calculateScore` subtracts the total penalty. -/
lemma calculateScore_foldl (l : List Finding) : ∀ s : ℤ,
    l.foldl (fun score f =>
      match f.severity with
      | Severity.critical => score - 20
      | Severity.warning => score - 10
      | Severity.info => score - 3) s =
    s - (20 * (countSeverity Severity.critical l : ℤ)
       + 10 * (countSeverity Severity.warning l : ℤ)
       + 3 * (countSeverity Severity.info l : ℤ)) := by
  induction l with
  | nil => intro s; simp [countSeverity]
  | cons f t ih =>
    intro s
    rw [List.foldl_cons, ih]
    rcases hf : f.severity <;> simp [countSeverity_cons, hf] <;> omega

/-- Helper: closed form of `calculateScore`. -/
lemma calculateScore_closed (l : List Finding) :
    calculateScore l =
      max 0 (min 100 (100 - 20 * (countSeverity Severity.critical l : ℤ)
        - 10 * (countSeverity Severity.warning l : ℤ)
        - 3 * (countSeverity Severity.info l : ℤ))) := by
  unfold calculateScore
  rw [calculateScore_foldl]
  ring_nf

/-- Claim C1 counterexample: a preset whose `prompts` and `prompt_order` are
present but empty arrays passes every guard (empty arrays are truthy in JS)
and the token-thresholds rule flags the zero-token stable prefix, so
`analyze` returns one `info` finding and score 97, not the claimed empty
result with score 100. -/
theorem C1_empty_arrays_counterexample :
    ¬ (((analyze (some ⟨some [], some [], none⟩) ⟨none, none⟩).findings = []) ∧
       (analyze (some ⟨some [], some [], none⟩) ⟨none, none⟩).score = 100 ∧
       (analyze (some ⟨some [], some [], none⟩) ⟨none, none⟩).summary = ⟨0, 0, 0⟩) := by
  decide

/-- Claim C1 (amended): for a null preset, or a preset whose `prompts` or
`prompt_order` is absent, `analyze` returns findings = [], score = 100 and
an all-zero summary (and, being a total function, never throws).  A
present-but-empty `prompts`/`prompt_order` array is not covered: it passes
the truthiness guards. -/
theorem C1_analyze_absent_input (options : Options) :
    analyze none options = ⟨[], 100, ⟨0, 0, 0⟩⟩ ∧
    ∀ prOpt poOpt sq, (prOpt = none ∨ poOpt = none) →
      analyze (some ⟨prOpt, poOpt, sq⟩) options = ⟨[], 100, ⟨0, 0, 0⟩⟩ := by
  refine ⟨rfl, ?_⟩
  rintro prOpt poOpt sq (rfl | rfl)
  · rfl
  · cases prOpt <;> rfl

/-- Witness for C1 (amended) at concrete inputs. -/
theorem C1_analyze_absent_input_witness :
    analyze none ⟨none, none⟩ = ⟨[], 100, ⟨0, 0, 0⟩⟩ ∧
    analyze (some ⟨none, some [⟨"a", true, none⟩], none⟩) ⟨some "google", none⟩ =
      ⟨[], 100, ⟨0, 0, 0⟩⟩ :=
  ⟨(C1_analyze_absent_input ⟨none, none⟩).1,
   (C1_analyze_absent_input ⟨some "google", none⟩).2 none (some [⟨"a", true, none⟩]) none
     (Or.inl rfl)⟩

/-- Claim C2: `calculateScore` equals the clamped linear form
`max(0, min(100, 100 − 20·critical − 10·warning − 3·info))`; adding a
finding never increases the score; the empty list scores 100; a single
critical/warning/info finding scores 80/90/97; five or more criticals
score exactly 0. -/
theorem C2_calculateScore_closed_form :
    (∀ l, calculateScore l =
      max 0 (min 100 (100 - 20 * (countSeverity Severity.critical l : ℤ)
        - 10 * (countSeverity Severity.warning l : ℤ)
        - 3 * (countSeverity Severity.info l : ℤ)))) ∧
    (∀ f l, calculateScore (f :: l) ≤ calculateScore l) ∧
    calculateScore [] = 100 ∧
    (∀ f, f.severity = Severity.critical → calculateScore [f] = 80) ∧
    (∀ f, f.severity = Severity.warning → calculateScore [f] = 90) ∧
    (∀ f, f.severity = Severity.info → calculateScore [f] = 97) ∧
    (∀ l, 5 ≤ countSeverity Severity.critical l → calculateScore l = 0) := by
  refine ⟨calculateScore_closed, ?_, by decide, ?_, ?_, ?_, ?_⟩
  · intro f l
    rw [calculateScore_closed, calculateScore_closed]
    rcases hf : f.severity <;> simp [countSeverity_cons, hf] <;> omega
  · intro f hf
    rw [calculateScore_closed]
    simp [countSeverity_cons, countSeverity, hf]
  · intro f hf
    rw [calculateScore_closed]
    simp [countSeverity_cons, countSeverity, hf]
  · intro f hf
    rw [calculateScore_closed]
    simp [countSeverity_cons, countSeverity, hf]
  · intro l hl
    rw [calculateScore_closed]
    have h1 : (0 : ℤ) ≤ countSeverity Severity.warning l := by positivity
    have h2 : (0 : ℤ) ≤ countSeverity Severity.info l := by positivity
    have h3 : (5 : ℤ) ≤ countSeverity Severity.critical l := by exact_mod_cast hl
    omega

/-- Witness for C2 at concrete findings. -/
theorem C2_calculateScore_witness :
    calculateScore [⟨"x", "r", Severity.critical, "a", "all", Meta.ordering 0 0 []⟩] = 80 ∧
    calculateScore
      (List.replicate 5 ⟨"x", "r", Severity.critical, "a", "all", Meta.ordering 0 0 []⟩) = 0 :=
  ⟨C2_calculateScore_closed_form.2.2.2.1 _ rfl,
   C2_calculateScore_closed_form.2.2.2.2.2.2 _ (by decide)⟩

/-! Helper lemmas relating the embedded matcher to the spec-side occurrence
predicate. -/

/-- Helper: `ciStartsWith` succeeds exactly when the lowered text starts
with the lowered pattern. -/
lemma ciStartsWith_iff (p : List Char) : ∀ cs : List Char,
    ciStartsWith p cs = true ↔
      p.length ≤ cs.length ∧ (cs.take p.length).map Char.toLower = p.map Char.toLower := by
  induction p with
  | nil => intro cs; simp [ciStartsWith]
  | cons a ps ih =>
    intro cs
    cases cs with
    | nil => simp [ciStartsWith]
    | cons c cs' =>
      simp only [ciStartsWith, Bool.and_eq_true, decide_eq_true_eq, ih, List.length_cons,
        List.take_succ_cons, List.map_cons, List.cons.injEq, Nat.add_le_add_iff_right]
      tauto

/-- Helper: `delimAt` succeeds exactly on a leading `::` or `}}`. -/
lemma delimAt_iff (cs : List Char) :
    delimAt cs = true ↔ ∃ t, cs = ':' :: ':' :: t ∨ cs = '}' :: '}' :: t := by
  rcases cs with _ | ⟨a, _ | ⟨b, t⟩⟩
  · simp [delimAt]
  · simp [delimAt]
  · simp only [delimAt, Bool.or_eq_true, Bool.and_eq_true, decide_eq_true_eq]
    constructor
    · rintro (⟨rfl, rfl⟩ | ⟨rfl, rfl⟩)
      · exact ⟨t, Or.inl rfl⟩
      · exact ⟨t, Or.inr rfl⟩
    · rintro ⟨t', h | h⟩ <;> simp_all

/-- Helper: an anchored match succeeds exactly on `{{`, a macro name
(case-insensitively) and `::` or `}}`. -/
lemma matchCapture_isSome_iff (cs : List Char) :
    (matchCapture cs).isSome = true ↔
      ∃ name nameChars delim rest,
        name ∈ DYNAMIC_MACRO_NAMES ∧
        nameChars.map Char.toLower = name.toList.map Char.toLower ∧
        (delim = [':', ':'] ∨ delim = ['}', '}']) ∧
        cs = '{' :: '{' :: (nameChars ++ (delim ++ rest)) := by
  constructor
  · intro h
    rcases cs with _ | ⟨a, _ | ⟨b, rest⟩⟩
    · simp [matchCapture] at h
    · simp [matchCapture] at h
    · rw [matchCapture] at h
      by_cases hab : a = '{' ∧ b = '{'
      · obtain ⟨rfl, rfl⟩ := hab
        rw [if_pos ⟨rfl, rfl⟩] at h
        rcases hn : findNameAt rest with _ | n
        · rw [hn] at h; simp at h
        · have hmem : n ∈ DYNAMIC_MACRO_NAMES := List.mem_of_find?_eq_some hn
          have hpred := List.find?_some hn
          rw [Bool.and_eq_true] at hpred
          obtain ⟨hci, hdel⟩ := hpred
          have hlen : n.length = n.toList.length := rfl
          rw [ciStartsWith_iff] at hci
          obtain ⟨hle, htake⟩ := hci
          rw [delimAt_iff] at hdel
          obtain ⟨t, hd | hd⟩ := hdel
          · refine ⟨n, rest.take n.length, [':', ':'], t, hmem, ?_, Or.inl rfl, ?_⟩
            · rw [hlen]; exact htake
            · have hrest : rest = rest.take n.length ++ (':' :: ':' :: t) := by
                conv_lhs => rw [← List.take_append_drop n.length rest]
                rw [hd]
              conv_lhs => rw [hrest]
              rfl
          · refine ⟨n, rest.take n.length, ['}', '}'], t, hmem, ?_, Or.inr rfl, ?_⟩
            · rw [hlen]; exact htake
            · have hrest : rest = rest.take n.length ++ ('}' :: '}' :: t) := by
                conv_lhs => rw [← List.take_append_drop n.length rest]
                rw [hd]
              conv_lhs => rw [hrest]
              rfl
      · rw [if_neg hab] at h; simp at h
  · rintro ⟨name, nameChars, delim, rest, hmem, hlow, hdelim, rfl⟩
    have hlenEq : nameChars.length = name.toList.length := by
      have := congrArg List.length hlow
      simpa using this
    have hfind : (findNameAt (nameChars ++ (delim ++ rest))).isSome = true := by
      rw [findNameAt, List.find?_isSome]
      refine ⟨name, hmem, ?_⟩
      rw [Bool.and_eq_true]
      constructor
      · rw [ciStartsWith_iff]
        constructor
        · rw [List.length_append]
          omega
        · rw [← hlenEq, List.take_left]
          exact hlow
      · have hlen : name.length = name.toList.length := rfl
        have hdrop : (nameChars ++ (delim ++ rest)).drop name.length = delim ++ rest := by
          rw [hlen, ← hlenEq, List.drop_left]
        rw [hdrop]
        rcases hdelim with rfl | rfl <;> simp [delimAt]
    rw [matchCapture, if_pos ⟨rfl, rfl⟩]
    rcases hn : findNameAt (nameChars ++ (delim ++ rest)) with _ | n
    · rw [hn] at hfind; simp at hfind
    · simp

/-- Helper: `regexTest` succeeds exactly when an anchored match succeeds at
some position. -/
lemma regexTest_iff_exists (cs : List Char) :
    regexTest cs = true ↔ ∃ k, (matchCapture (cs.drop k)).isSome = true := by
  induction cs with
  | nil =>
    simp [regexTest, matchCapture]
  | cons c t ih =>
    rw [regexTest, Bool.or_eq_true, ih]
    constructor
    · rintro (h | ⟨k, h⟩)
      · exact ⟨0, h⟩
      · exact ⟨k + 1, by simpa [List.drop_succ_cons] using h⟩
    · rintro ⟨k, h⟩
      rcases k with _ | k
      · exact Or.inl h
      · exact Or.inr ⟨k, by simpa [List.drop_succ_cons] using h⟩

/-- Helper: the embedded regex test agrees with the spec-side occurrence
predicate. -/
lemma regexTest_iff_occurrence (s : String) :
    regexTest s.toList = true ↔ IsDynamicOccurrence s := by
  rw [regexTest_iff_exists]
  constructor
  · rintro ⟨k, h⟩
    rw [matchCapture_isSome_iff] at h
    obtain ⟨name, nameChars, delim, rest, hmem, hlow, hdelim, hdec⟩ := h
    refine ⟨s.toList.take k, name, nameChars, delim, rest, hmem, hlow, hdelim, ?_⟩
    conv_lhs => rw [← List.take_append_drop k s.toList]
    rw [hdec]
  · rintro ⟨pre, name, nameChars, delim, rest, hmem, hlow, hdelim, hdec⟩
    refine ⟨pre.length, ?_⟩
    rw [matchCapture_isSome_iff]
    exact ⟨name, nameChars, delim, rest, hmem, hlow, hdelim, by rw [hdec, List.drop_left]⟩

/-- Helper: the empty string has no dynamic-macro occurrence. -/
lemma not_isDynamicOccurrence_empty : ¬ IsDynamicOccurrence "" := by
  rintro ⟨pre, name, nameChars, delim, rest, _, _, _, hdec⟩
  have h0 : ("" : String).toList = [] := rfl
  rw [h0] at hdec
  exact absurd hdec.symm (by simp)

/-- Claim C3: `isVolatile(identifier, content)` is true exactly when the
identifier is `chatHistory` or `dialogueExamples`, or the content contains
a case-insensitive dynamic-macro occurrence `{{name}}` / `{{name::…}}` for
one of the nine dynamic names; deterministic macros and comment markers
are never volatile.  (`isVolatile` is a pure Lean function, so the result
depends only on its two arguments.) -/
theorem C3_isVolatile_characterization (identifier content : String) :
    (isVolatile identifier content = true ↔
      identifier = "chatHistory" ∨ identifier = "dialogueExamples" ∨
        IsDynamicOccurrence content) ∧
    isVolatile "main" "\x7b\x7bchar\x7d\x7d \x7b\x7buser\x7d\x7d \x7b\x7bgetvar::mood\x7d\x7d" = false ∧
    isVolatile "main" "\x7b\x7b// a comment\x7d\x7d" = false ∧
    isVolatile "chatHistory" "" = true ∧
    isVolatile "main" "\x7b\x7bRANDOM::1,2\x7d\x7d" = true := by
  refine ⟨?_, by decide, by decide, by decide, by decide⟩
  have hmem : VOLATILE_IDENTIFIERS.contains identifier = true ↔
      identifier = "chatHistory" ∨ identifier = "dialogueExamples" := by
    simp [VOLATILE_IDENTIFIERS, List.contains, List.elem_eq_mem]
  by_cases hid : VOLATILE_IDENTIFIERS.contains identifier = true
  · rw [isVolatile, if_pos hid]
    constructor
    · intro _
      rcases hmem.mp hid with h | h
      · exact Or.inl h
      · exact Or.inr (Or.inl h)
    · intro _
      rfl
  · rw [isVolatile, if_neg hid]
    have hnotid := hid
    rw [hmem] at hnotid
    push_neg at hnotid
    by_cases hc : content = ""
    · subst hc
      rw [if_neg (by simp)]
      constructor
      · intro h
        exact absurd h (by simp)
      · rintro (h | h | h)
        · exact absurd h hnotid.1
        · exact absurd h hnotid.2
        · exact absurd h not_isDynamicOccurrence_empty
    · rw [if_pos hc]
      rw [regexTest_iff_occurrence]
      constructor
      · intro h; exact Or.inr (Or.inr h)
      · rintro (h | h | h)
        · exact absurd h hnotid.1
        · exact absurd h hnotid.2
        · exact h

/-- Witness for C3 at a concrete input: the characterization applied to
`chatHistory` shows the identifier branch. -/
theorem C3_isVolatile_witness :
    ("chatHistory" : String) = "chatHistory" ∨ ("chatHistory" : String) = "dialogueExamples" ∨
      IsDynamicOccurrence "abc" :=
  (C3_isVolatile_characterization "chatHistory" "abc").1.mp (by decide)

/-! Helper lemmas for extracting one loop iteration's findings from the
index-loop output, using the position tag recorded in each finding. -/

/-- Helper: findings tagged with an index outside the range are absent. -/
lemma flatMapRange_filter_tag_ge (B : Nat → List Finding) (tag : Finding → Option Nat)
    (hB : ∀ j f, f ∈ B j → tag f = some j) :
    ∀ n i, n ≤ i →
      ((List.range n).flatMap B).filter (fun f => decide (tag f = some i)) = [] := by
  intro n
  induction n with
  | zero => intro i _; simp
  | succ n ih =>
    intro i hi
    rw [List.range_succ, List.flatMap_append, List.filter_append, ih i (by omega)]
    simp only [List.flatMap_cons, List.flatMap_nil, List.append_nil, List.nil_append]
    rw [List.filter_eq_nil_iff]
    intro f hf
    have htag := hB n f hf
    simp [htag]
    omega

/-- Helper: filtering the loop output by an in-range position tag yields
exactly that iteration's findings. -/
lemma flatMapRange_filter_tag_lt (B : Nat → List Finding) (tag : Finding → Option Nat)
    (hB : ∀ j f, f ∈ B j → tag f = some j) :
    ∀ n i, i < n →
      ((List.range n).flatMap B).filter (fun f => decide (tag f = some i)) = B i := by
  intro n
  induction n with
  | zero => intro i hi; omega
  | succ n ih =>
    intro i hi
    rw [List.range_succ, List.flatMap_append, List.filter_append]
    simp only [List.flatMap_cons, List.flatMap_nil, List.append_nil]
    rcases Nat.lt_succ_iff_lt_or_eq.mp hi with h | rfl
    · rw [ih i h]
      have hz : (B n).filter (fun f => decide (tag f = some i)) = [] := by
        rw [List.filter_eq_nil_iff]
        intro f hf
        have htag := hB n f hf
        simp [htag]
        omega
      rw [hz, List.append_nil]
    · rw [flatMapRange_filter_tag_ge B tag hB i i (le_refl i), List.nil_append]
      exact List.filter_eq_self.mpr (fun f hf => by simp [hB i f hf])

/-- Helper: a `filterMap` over indices is the `flatMap` of the option's
list view. -/
lemma filterMapRange_eq_flatMap (g : Nat → Option Finding) (l : List Nat) :
    l.filterMap g = l.flatMap (fun j => (g j).toList) := by
  induction l with
  | nil => rfl
  | cons a t ih => cases hg : g a <;> simp [List.filterMap_cons, hg, ih]

/-- Helper: the exact-rational rendering of the float comparison
`index / total < 0.4`. -/
lemma posFrac_lt_iff (i total : Nat) (h : 0 < total) :
    ((i : ℚ) / (total : ℚ) < 0.4) ↔ 5 * i < 2 * total := by
  have ht : (0 : ℚ) < (total : ℚ) := by exact_mod_cast h
  rw [div_lt_iff ht, show (0.4 : ℚ) = 2 / 5 from by norm_num, div_mul_eq_mul_div,
    lt_div_iff (by norm_num : (0 : ℚ) < 5)]
  constructor
  · intro h'
    have : ((5 * i : ℕ) : ℚ) < ((2 * total : ℕ) : ℚ) := by push_cast; linarith
    exact_mod_cast this
  · intro h'
    have : ((5 * i : ℕ) : ℚ) < ((2 * total : ℕ) : ℚ) := by exact_mod_cast h'
    push_cast at this
    linarith

/-- Helper: every finding emitted by one macro-placement loop iteration is
tagged with that iteration's index. -/
lemma placementFindingsAt_tag (prompts : List Prompt) (entries : List OrderRec) :
    ∀ j f, f ∈ placementFindingsAt prompts entries j → f.placementPos = some j := by
  intro j f hf
  simp only [placementFindingsAt] at hf
  split at hf
  · simp at hf
  · split at hf
    · simp at hf
    · split at hf
      · simp at hf
      · obtain ⟨mc, _, rfl⟩ := List.mem_map.mp hf
        rfl

/-- Helper: the number of findings of one macro-placement loop iteration is
the number of exec-loop matches in that entry's content. -/
lemma placementFindingsAt_length (prompts : List Prompt) (entries : List OrderRec)
    (i : Nat) (entry : OrderRec) (hget : entries.get? i = some entry) :
    (placementFindingsAt prompts entries i).length =
      (scanCaptures (contentOf prompts entry.identifier).toList).length := by
  simp only [placementFindingsAt, hget]
  rcases hlook : promptMapLookup prompts entry.identifier with _ | prompt
  · rw [contentOf, hlook]
    simp [scanCaptures, scanCapturesAux]
  · rw [contentOf, hlook]
    by_cases hc : prompt.content = ""
    · simp [hc, scanCaptures, scanCapturesAux]
    · simp [hc]

/-- Claim C4: in `checkMacroPlacement`, for a non-empty effective sequence
and an index `i` in range, the findings tagged with position `i` are
exactly one per exec-loop match in that entry's content, each with severity
`critical` at `i = 0`, `warning` when `i / totalEntries < 0.4` strictly,
and `info` otherwise; at fractional position `0.4` or above the severity is
always `info` (never `critical`). -/
theorem C4_checkMacroPlacement_positions (prompts : List Prompt) (po : List OrderElem)
    (sq : Option Bool) (options : Options) (i : Nat)
    (hlt : i < ((getOrderArray po).filter (fun e => e.enabled)).length) :
    ((checkMacroPlacement (some ⟨some prompts, some po, sq⟩) options).filter
        (fun f => decide (f.placementPos = some i))).length =
      (scanCaptures (contentOf prompts
        ((((getOrderArray po).filter (fun e => e.enabled)).get ⟨i, hlt⟩).identifier)).toList).length ∧
    (∀ f ∈ checkMacroPlacement (some ⟨some prompts, some po, sq⟩) options,
      f.placementPos = some i →
        f.severity =
          (if i = 0 then Severity.critical
           else if ((i : ℚ) / ((((getOrderArray po).filter (fun e => e.enabled)).length : ℚ))) < 0.4
             then Severity.warning
           else Severity.info)) ∧
    ((0.4 : ℚ) ≤ (i : ℚ) / ((((getOrderArray po).filter (fun e => e.enabled)).length : ℚ)) →
      ∀ f ∈ checkMacroPlacement (some ⟨some prompts, some po, sq⟩) options,
        f.placementPos = some i → f.severity = Severity.info) := by
  have htot : ¬(((getOrderArray po).filter (fun e => e.enabled)).length = 0) := by omega
  have hF : checkMacroPlacement (some ⟨some prompts, some po, sq⟩) options =
      (List.range ((getOrderArray po).filter (fun e => e.enabled)).length).flatMap
        (placementFindingsAt prompts ((getOrderArray po).filter (fun e => e.enabled))) := by
    simp only [checkMacroPlacement]
    rw [if_neg htot]
  have hext : (checkMacroPlacement (some ⟨some prompts, some po, sq⟩) options).filter
      (fun f => decide (f.placementPos = some i)) =
      placementFindingsAt prompts ((getOrderArray po).filter (fun e => e.enabled)) i := by
    rw [hF]
    exact flatMapRange_filter_tag_lt _ _
      (placementFindingsAt_tag prompts ((getOrderArray po).filter (fun e => e.enabled))) _ i hlt
  have hsev : ∀ f ∈ checkMacroPlacement (some ⟨some prompts, some po, sq⟩) options,
      f.placementPos = some i →
        f.severity =
          (if i = 0 then Severity.critical
           else if ((i : ℚ) / ((((getOrderArray po).filter (fun e => e.enabled)).length : ℚ))) < 0.4
             then Severity.warning
           else Severity.info) := by
    intro f hfF hpos
    have hfb : f ∈ placementFindingsAt prompts ((getOrderArray po).filter (fun e => e.enabled)) i := by
      rw [← hext]
      exact List.mem_filter.mpr ⟨hfF, by simp [hpos]⟩
    simp only [placementFindingsAt] at hfb
    split at hfb
    · simp at hfb
    · split at hfb
      · simp at hfb
      · split at hfb
        · simp at hfb
        · obtain ⟨mc, _, rfl⟩ := List.mem_map.mp hfb
          show (if i = 0 then Severity.critical
            else if 5 * i < 2 * ((getOrderArray po).filter (fun e => e.enabled)).length
              then Severity.warning
            else Severity.info) = _
          by_cases h0 : i = 0
          · rw [if_pos h0, if_pos h0]
          · rw [if_neg h0, if_neg h0]
            have hbr := posFrac_lt_iff i ((getOrderArray po).filter (fun e => e.enabled)).length
              (by omega)
            by_cases h5 : 5 * i < 2 * ((getOrderArray po).filter (fun e => e.enabled)).length
            · rw [if_pos h5, if_pos (hbr.mpr h5)]
            · rw [if_neg h5, if_neg (fun hq => h5 (hbr.mp hq))]
  refine ⟨?_, hsev, ?_⟩
  · rw [hext]
    exact placementFindingsAt_length prompts ((getOrderArray po).filter (fun e => e.enabled)) i
      (((getOrderArray po).filter (fun e => e.enabled)).get ⟨i, hlt⟩) (List.get?_eq_get hlt)
  · intro hge f hfF hpos
    rw [hsev f hfF hpos]
    have hne : i ≠ 0 := by
      intro h0
      subst h0
      rw [Nat.cast_zero, zero_div] at hge
      norm_num at hge
    rw [if_neg hne, if_neg (not_lt.mpr hge)]

/-- Witness for C4 at a concrete preset: one `{{random}}` in the entry at
position 0 of 2 yields exactly one position-0 finding, and it is critical. -/
theorem C4_checkMacroPlacement_witness :
    ((checkMacroPlacement
        (some ⟨some [⟨"a", "A", "x\x7b\x7brandom\x7d\x7dy", true, "system", none, none⟩,
                     ⟨"b", "B", "stuff", true, "user", none, none⟩],
               some [⟨"a", true, none⟩, ⟨"b", true, none⟩], none⟩)
        ⟨none, none⟩).filter (fun f => decide (f.placementPos = some 0))).length =
      (scanCaptures (contentOf [⟨"a", "A", "x\x7b\x7brandom\x7d\x7dy", true, "system", none, none⟩,
                     ⟨"b", "B", "stuff", true, "user", none, none⟩]
        ((((getOrderArray [⟨"a", true, none⟩, ⟨"b", true, none⟩]).filter
            (fun e => e.enabled)).get ⟨0, by decide⟩).identifier)).toList).length ∧
    (scanCaptures (contentOf [⟨"a", "A", "x\x7b\x7brandom\x7d\x7dy", true, "system", none, none⟩,
                     ⟨"b", "B", "stuff", true, "user", none, none⟩]
        ((((getOrderArray [⟨"a", true, none⟩, ⟨"b", true, none⟩]).filter
            (fun e => e.enabled)).get ⟨0, by decide⟩).identifier)).toList).length = 1 :=
  ⟨(C4_checkMacroPlacement_positions
      [⟨"a", "A", "x\x7b\x7brandom\x7d\x7dy", true, "system", none, none⟩,
       ⟨"b", "B", "stuff", true, "user", none, none⟩]
      [⟨"a", true, none⟩, ⟨"b", true, none⟩] none ⟨none, none⟩ 0 (by decide)).1,
   by decide⟩

/-- Helper: the finding (if any) of one prompt-ordering loop iteration is
tagged with that iteration's index. -/
lemma orderingFindingAt_tag (classified : List ClassifiedEntry) :
    ∀ j f, orderingFindingAt classified j = some f → f.orderingPos = some j := by
  intro j f h
  simp only [orderingFindingAt] at h
  split at h
  · exact Option.noConfusion h
  · split at h
    · split at h
      · exact Option.noConfusion h
      · injection h with h2
        subst h2
        rfl
    · exact Option.noConfusion h

/-- Helper: evaluating one prompt-ordering loop iteration at a volatile
entry, in terms of the order entries themselves (the classification is a
`map`, so dropping and filtering commute with it). -/
lemma orderingFindingAt_eval (prompts : List Prompt) (entries : List OrderRec)
    (i : Nat) (entry : OrderRec) (hget : entries.get? i = some entry)
    (hvol : isVolatile entry.identifier (contentOf prompts entry.identifier) = true) :
    orderingFindingAt (classifyEntries prompts entries) i =
      (if ((entries.drop (i + 1)).filter
            (fun e => !(isVolatile e.identifier (contentOf prompts e.identifier)))).length < 2
        then none
        else some ⟨"prompt-ordering-" ++ toString i, "prompt-ordering", Severity.warning,
          entry.identifier, "all",
          Meta.ordering i
            ((entries.drop (i + 1)).filter
              (fun e => !(isVolatile e.identifier (contentOf prompts e.identifier)))).length
            (((entries.drop (i + 1)).filter
              (fun e => !(isVolatile e.identifier (contentOf prompts e.identifier)))).map
              (fun e => e.identifier))⟩) := by
  have hCget : (classifyEntries prompts entries).get? i =
      some ⟨entry, promptMapLookup prompts entry.identifier,
            isVolatile entry.identifier (contentOf prompts entry.identifier)⟩ := by
    rw [classifyEntries, List.get?_map, hget]
    rfl
  have hSA : ((classifyEntries prompts entries).drop (i + 1)).filter (fun c => !c.volatile) =
      (((entries.drop (i + 1)).filter
        (fun e => !(isVolatile e.identifier (contentOf prompts e.identifier)))).map
        (fun e => (⟨e, promptMapLookup prompts e.identifier,
          isVolatile e.identifier (contentOf prompts e.identifier)⟩ : ClassifiedEntry))) := by
    rw [classifyEntries, ← List.map_drop, List.filter_map]
    rfl
  simp only [orderingFindingAt, hCget]
  rw [if_pos hvol, hSA, List.length_map, List.map_map]
  rfl

/-- Claim C5: in `checkPromptOrdering`, a volatile entry at position `i`
with fewer than two stable entries after it produces no finding; with two
or more it produces exactly one `warning` finding naming the volatile
entry (`affectedEntry`), the count of stable entries after it and their
identifiers (in the meta). -/
theorem C5_checkPromptOrdering_threshold (prompts : List Prompt) (po : List OrderElem)
    (sq : Option Bool) (options : Options) (i : Nat)
    (hlt : i < ((getOrderArray po).filter (fun e => e.enabled)).length)
    (hvol : isVolatile ((((getOrderArray po).filter (fun e => e.enabled)).get ⟨i, hlt⟩).identifier)
      (contentOf prompts
        ((((getOrderArray po).filter (fun e => e.enabled)).get ⟨i, hlt⟩).identifier)) = true) :
    (((((getOrderArray po).filter (fun e => e.enabled)).drop (i + 1)).filter
        (fun e => !(isVolatile e.identifier (contentOf prompts e.identifier)))).length < 2 →
      (checkPromptOrdering (some ⟨some prompts, some po, sq⟩) options).filter
        (fun f => decide (f.orderingPos = some i)) = []) ∧
    (2 ≤ ((((getOrderArray po).filter (fun e => e.enabled)).drop (i + 1)).filter
        (fun e => !(isVolatile e.identifier (contentOf prompts e.identifier)))).length →
      (checkPromptOrdering (some ⟨some prompts, some po, sq⟩) options).filter
        (fun f => decide (f.orderingPos = some i)) =
        [⟨"prompt-ordering-" ++ toString i, "prompt-ordering", Severity.warning,
          ((((getOrderArray po).filter (fun e => e.enabled)).get ⟨i, hlt⟩).identifier), "all",
          Meta.ordering i
            (((((getOrderArray po).filter (fun e => e.enabled)).drop (i + 1)).filter
              (fun e => !(isVolatile e.identifier (contentOf prompts e.identifier)))).length)
            ((((((getOrderArray po).filter (fun e => e.enabled)).drop (i + 1)).filter
              (fun e => !(isVolatile e.identifier (contentOf prompts e.identifier)))).map
              (fun e => e.identifier)))⟩]) := by
  have hne : ¬((((getOrderArray po).filter (fun e => e.enabled)).length) = 0) := by omega
  have hF : checkPromptOrdering (some ⟨some prompts, some po, sq⟩) options =
      (List.range
        (classifyEntries prompts ((getOrderArray po).filter (fun e => e.enabled))).length).filterMap
        (orderingFindingAt (classifyEntries prompts ((getOrderArray po).filter (fun e => e.enabled)))) := by
    simp only [checkPromptOrdering]
    rw [if_neg hne]
  have hlen : (classifyEntries prompts ((getOrderArray po).filter (fun e => e.enabled))).length =
      ((getOrderArray po).filter (fun e => e.enabled)).length := by
    simp [classifyEntries]
  have htag : ∀ j f,
      f ∈ (orderingFindingAt
        (classifyEntries prompts ((getOrderArray po).filter (fun e => e.enabled))) j).toList →
      f.orderingPos = some j := by
    intro j f hf
    rw [Option.mem_toList, Option.mem_def] at hf
    exact orderingFindingAt_tag _ j f hf
  have hext : (checkPromptOrdering (some ⟨some prompts, some po, sq⟩) options).filter
      (fun f => decide (f.orderingPos = some i)) =
      (orderingFindingAt
        (classifyEntries prompts ((getOrderArray po).filter (fun e => e.enabled))) i).toList := by
    rw [hF, filterMapRange_eq_flatMap]
    refine flatMapRange_filter_tag_lt _ _ htag _ i ?_
    rw [hlen]
    exact hlt
  have heval := orderingFindingAt_eval prompts ((getOrderArray po).filter (fun e => e.enabled)) i
    (((getOrderArray po).filter (fun e => e.enabled)).get ⟨i, hlt⟩) (List.get?_eq_get hlt) hvol
  constructor
  · intro hsmall
    rw [hext, heval, if_pos hsmall]
    rfl
  · intro hbig
    rw [hext, heval, if_neg (by omega)]
    rfl

/-- Witness for C5 at end-to-end scenario B: `chatHistory` (volatile) is
followed by two stable entries, yielding exactly one warning finding. -/
theorem C5_checkPromptOrdering_witness :
    (checkPromptOrdering
      (some ⟨some [⟨"main", "Main", "mmmm", true, "system", none, none⟩,
                   ⟨"charDescription", "Char", "cccc", true, "system", none, none⟩,
                   ⟨"scenario", "Scen", "ssss", true, "system", none, none⟩],
             some [⟨"main", true, none⟩, ⟨"chatHistory", true, none⟩,
                   ⟨"charDescription", true, none⟩, ⟨"scenario", true, none⟩], none⟩)
      ⟨none, none⟩).filter (fun f => decide (f.orderingPos = some 1)) =
    [⟨"prompt-ordering-1", "prompt-ordering", Severity.warning, "chatHistory", "all",
      Meta.ordering 1 2 ["charDescription", "scenario"]⟩] :=
  (C5_checkPromptOrdering_threshold
    [⟨"main", "Main", "mmmm", true, "system", none, none⟩,
     ⟨"charDescription", "Char", "cccc", true, "system", none, none⟩,
     ⟨"scenario", "Scen", "ssss", true, "system", none, none⟩]
    [⟨"main", true, none⟩, ⟨"chatHistory", true, none⟩,
     ⟨"charDescription", true, none⟩, ⟨"scenario", true, none⟩]
    none ⟨none, none⟩ 1 (by decide) (by decide)).2 (by decide)

/-- Helper: the exact-rational rendering of the float comparison
`estimatedTokens / threshold >= 0.9`. -/
lemma ratio_ge_iff (est thr : Nat) (h : 0 < thr) :
    ((0.9 : ℚ) ≤ (est : ℚ) / (thr : ℚ)) ↔ 9 * thr ≤ 10 * est := by
  have ht : (0 : ℚ) < (thr : ℚ) := by exact_mod_cast h
  rw [le_div_iff ht, show (0.9 : ℚ) = 9 / 10 from by norm_num, div_mul_eq_mul_div,
    div_le_iff (by norm_num : (0 : ℚ) < 10)]
  constructor
  · intro h'
    have hq : ((9 * thr : ℕ) : ℚ) ≤ ((10 * est : ℕ) : ℚ) := by push_cast; linarith
    exact_mod_cast hq
  · intro h'
    have hq : ((9 * thr : ℕ) : ℚ) ≤ ((10 * est : ℕ) : ℚ) := by exact_mod_cast h'
    push_cast at hq
    linarith

/-- Helper: both sub-0.9 branches of the source's severity chain are
`info`, so the chain equals the two-way ratio comparison. -/
lemma thresholds_severity_eq (est thr : Nat) (h : 0 < thr) :
    (if 9 * thr ≤ 10 * est then Severity.warning
     else if 8 * thr ≤ 10 * est then Severity.info else Severity.info) =
    (if (0.9 : ℚ) ≤ (est : ℚ) / (thr : ℚ) then Severity.warning else Severity.info) := by
  by_cases h9 : 9 * thr ≤ 10 * est
  · rw [if_pos h9, if_pos ((ratio_ge_iff est thr h).mpr h9)]
  · rw [if_neg h9, if_neg (fun hq => h9 ((ratio_ge_iff est thr h).mp hq))]
    split <;> rfl

/-- Helper: every threshold in the table (with the anthropic fallback) is
positive. -/
lemma thresholds_pos (p : String) : 0 < (THRESHOLDS p).getD 1024 := by
  unfold THRESHOLDS
  split_ifs <;> simp

/-- Helper: characterization of `checkTokenThresholds` with the ratio-form
severity. -/
lemma checkTokenThresholds_char (prompts : List Prompt) (po : List OrderElem)
    (sq : Option Bool) (provOpt : Option String) (tok : String → Nat) :
    checkTokenThresholds (some ⟨some prompts, some po, sq⟩) ⟨provOpt, some tok⟩ =
      (if (THRESHOLDS (effectiveProvider ⟨provOpt, some tok⟩)).getD 1024 ≤
          tokenThresholdsEstimate prompts po tok then []
       else
         [⟨"token-thresholds-" ++ effectiveProvider ⟨provOpt, some tok⟩, "token-thresholds",
           (if (0.9 : ℚ) ≤ (tokenThresholdsEstimate prompts po tok : ℚ) /
               (((THRESHOLDS (effectiveProvider ⟨provOpt, some tok⟩)).getD 1024 : ℚ))
             then Severity.warning else Severity.info),
           "all", effectiveProvider ⟨provOpt, some tok⟩,
           Meta.thresholds (tokenThresholdsEstimate prompts po tok)
             ((THRESHOLDS (effectiveProvider ⟨provOpt, some tok⟩)).getD 1024)
             (((THRESHOLDS (effectiveProvider ⟨provOpt, some tok⟩)).getD 1024 : ℤ) -
               (tokenThresholdsEstimate prompts po tok : ℤ))
             ((tokenThresholdsEstimate prompts po tok : ℚ) /
               (((THRESHOLDS (effectiveProvider ⟨provOpt, some tok⟩)).getD 1024 : ℚ)))⟩]) := by
  simp only [checkTokenThresholds, Option.getD_some]
  rw [thresholds_severity_eq _ _ (thresholds_pos _)]

/-- Helper: the threshold table with the `options.provider || 'anthropic'`
fallback resolves as the claim states: 1024 for anthropic/openai, 4096 for
google, 1024 when absent, empty or unrecognized. -/
lemma thresholds_resolution (provOpt : Option String) (tokOpt : Option (String → Nat)) :
    (THRESHOLDS (effectiveProvider ⟨provOpt, tokOpt⟩)).getD 1024 =
      (if provOpt = some "anthropic" ∨ provOpt = some "openai" then 1024
       else if provOpt = some "google" then 4096 else 1024) := by
  rcases provOpt with _ | s
  · rfl
  · by_cases h1 : s = "anthropic"
    · subst h1; rfl
    · by_cases h2 : s = "openai"
      · subst h2; rfl
      · by_cases h3 : s = "google"
        · subst h3; rfl
        · by_cases h0 : s = ""
          · subst h0; simp [effectiveProvider, THRESHOLDS]
          · simp [effectiveProvider, THRESHOLDS, h0, h1, h2, h3]

/-- Claim C6: `checkTokenThresholds` uses threshold 1024 for anthropic and
openai, 4096 for google, and the anthropic threshold for an absent or
unrecognized provider; with estimate ≥ threshold there is no finding,
otherwise exactly one whose severity is `warning` iff the exact ratio is
at least 0.9 (else `info`), with meta carrying the estimate, threshold,
deficit and ratio; the default tokenizer is `ceil(length / 4)`, and an
absent tokenizer option behaves as the default tokenizer. -/
theorem C6_checkTokenThresholds_behavior (prompts : List Prompt) (po : List OrderElem)
    (sq : Option Bool) (provOpt : Option String) (tok : String → Nat) (s : String) :
    (checkTokenThresholds (some ⟨some prompts, some po, sq⟩) ⟨provOpt, some tok⟩ =
      (if (THRESHOLDS (effectiveProvider ⟨provOpt, some tok⟩)).getD 1024 ≤
          tokenThresholdsEstimate prompts po tok then []
       else
         [⟨"token-thresholds-" ++ effectiveProvider ⟨provOpt, some tok⟩, "token-thresholds",
           (if (0.9 : ℚ) ≤ (tokenThresholdsEstimate prompts po tok : ℚ) /
               (((THRESHOLDS (effectiveProvider ⟨provOpt, some tok⟩)).getD 1024 : ℚ))
             then Severity.warning else Severity.info),
           "all", effectiveProvider ⟨provOpt, some tok⟩,
           Meta.thresholds (tokenThresholdsEstimate prompts po tok)
             ((THRESHOLDS (effectiveProvider ⟨provOpt, some tok⟩)).getD 1024)
             (((THRESHOLDS (effectiveProvider ⟨provOpt, some tok⟩)).getD 1024 : ℤ) -
               (tokenThresholdsEstimate prompts po tok : ℤ))
             ((tokenThresholdsEstimate prompts po tok : ℚ) /
               (((THRESHOLDS (effectiveProvider ⟨provOpt, some tok⟩)).getD 1024 : ℚ)))⟩])) ∧
    ((THRESHOLDS (effectiveProvider ⟨provOpt, some tok⟩)).getD 1024 =
      (if provOpt = some "anthropic" ∨ provOpt = some "openai" then 1024
       else if provOpt = some "google" then 4096 else 1024)) ∧
    ((defaultTokenizer s : ℤ) = ⌈(s.length : ℚ) / 4⌉) ∧
    checkTokenThresholds (some ⟨some prompts, some po, sq⟩) ⟨provOpt, none⟩ =
      checkTokenThresholds (some ⟨some prompts, some po, sq⟩) ⟨provOpt, some defaultTokenizer⟩ := by
  refine ⟨checkTokenThresholds_char prompts po sq provOpt tok,
    thresholds_resolution provOpt (some tok), ?_, rfl⟩
  have hm1 : 4 * ((s.length + 3) / 4) ≤ s.length + 3 := by omega
  have hm2 : s.length ≤ 4 * ((s.length + 3) / 4) := by omega
  rw [defaultTokenizer, eq_comm, Int.ceil_eq_iff]
  set m := (s.length + 3) / 4 with hmdef
  constructor
  · rw [lt_div_iff (by norm_num : (0 : ℚ) < 4)]
    have h1 : ((4 * m : ℕ) : ℚ) ≤ ((s.length + 3 : ℕ) : ℚ) := by
      exact_mod_cast hm1
    push_cast at h1 ⊢
    linarith
  · rw [div_le_iff (by norm_num : (0 : ℚ) < 4)]
    have h2 : ((s.length : ℕ) : ℚ) ≤ ((4 * m : ℕ) : ℚ) := by
      exact_mod_cast hm2
    push_cast at h2 ⊢
    linarith

/-- Helper: the source's sequential severity chain for injection depth
equals the claim's two-level table. -/
lemma inj_severity_eq (d : ℤ) (dyn : Bool) :
    (if d ≤ 1 ∧ dyn then Severity.critical
     else if d ≤ 1 then Severity.warning
     else if dyn then Severity.warning else Severity.info) =
    (if d ≤ 1 then (if dyn then Severity.critical else Severity.warning)
     else (if dyn then Severity.warning else Severity.info)) := by
  by_cases h1 : d ≤ 1 <;> cases dyn <;> simp [h1]

/-- Claim-side reformulation of one `checkInjectionDepth` step: a prompt
qualifies iff it is enabled, in-sequence, has `injection_position = 1` and
a non-null depth `< 4`; severity per the claim's table (depth ≤ 1 and
dynamic → critical; depth ≤ 1 static → warning; depth 2–3 dynamic →
warning; depth 2–3 static → info). -/
def injClaim (po : List OrderElem) (p : Prompt) : Option Finding :=
  match p.injection_depth with
  | none => none
  | some depth =>
    if p.enabled = true ∧
       p.identifier ∈ (((getOrderArray po).filter (fun e => e.enabled)).map (fun e => e.identifier)) ∧
       p.injection_position = some 1 ∧ depth < 4 then
      some ⟨"injection-depth-" ++ p.identifier, "injection-depth",
        (if depth ≤ 1 then (if hasDynamicMacros p.content then Severity.critical
                            else Severity.warning)
         else (if hasDynamicMacros p.content then Severity.warning else Severity.info)),
        p.identifier, "all", Meta.injection depth 1 (hasDynamicMacros p.content)⟩
    else none

/-- Claim C7: `checkInjectionDepth` emits exactly one finding per enabled,
in-sequence prompt with `injection_position = 1` and non-null depth `< 4`,
with the claim's severity table; prompts with a different injection
position, a null depth, or depth ≥ 4 never produce findings. -/
theorem C7_checkInjectionDepth_characterization (prompts : List Prompt) (po : List OrderElem)
    (sq : Option Bool) (options : Options) :
    (checkInjectionDepth (some ⟨some prompts, some po, sq⟩) options =
      prompts.filterMap (injClaim po)) ∧
    (∀ p : Prompt, (p.injection_position ≠ some 1 ∨ p.injection_depth = none ∨
        (∀ d, p.injection_depth = some d → 4 ≤ d)) → injClaim po p = none) := by
  constructor
  · simp only [checkInjectionDepth]
    apply congrArg (fun f => List.filterMap f prompts)
    funext p
    rcases hd : p.injection_depth with _ | d
    · simp [injClaim, hd]
    · by_cases he : p.enabled = true
      · by_cases hmem : p.identifier ∈
          ((getOrderArray po).filter (fun e => e.enabled)).map (fun e => e.identifier)
        · have hcont : ((((getOrderArray po).filter (fun e => e.enabled)).map
              (fun e => e.identifier)).contains p.identifier) = true := by
            simp [List.contains, List.elem_eq_mem, hmem]
          by_cases hp : p.injection_position = some 1
          · by_cases h4 : (4 : ℤ) ≤ d
            · simp [injClaim, hd, he, hcont, hp, h4, hmem,
                show ¬(d < 4) from not_lt.mpr h4]
            · simp only [hd, injClaim]
              have hcond : p.enabled = true ∧
                  p.identifier ∈ ((getOrderArray po).filter (fun e => e.enabled)).map
                    (fun e => e.identifier) ∧
                  p.injection_position = some 1 ∧ d < 4 :=
                ⟨he, hmem, hp, not_le.mp h4⟩
              rw [if_neg (show ¬((!p.enabled) = true) from by rw [he]; decide),
                if_neg (show ¬((!((((getOrderArray po).filter (fun e => e.enabled)).map
                  (fun e => e.identifier)).contains p.identifier)) = true) from by
                    rw [hcont]; decide),
                if_neg (show ¬(p.injection_position ≠ some 1) from by simp [hp]),
                if_neg h4, if_pos hcond, inj_severity_eq]
          · simp [injClaim, hd, he, hcont, hp]
        · have hcont : ((((getOrderArray po).filter (fun e => e.enabled)).map
              (fun e => e.identifier)).contains p.identifier) = false := by
            simp [List.contains, List.elem_eq_mem, hmem]
          simp [injClaim, hd, he, hcont, hmem]
      · have he' : p.enabled = false := by simpa using he
        simp [injClaim, hd, he']
  · intro p hskip
    rcases hd : p.injection_depth with _ | d
    · simp [injClaim, hd]
    · rcases hskip with h | h | h
      · simp [injClaim, hd, h]
      · rw [h] at hd
        exact Option.noConfusion hd
      · simp [injClaim, hd, show ¬(d < 4) from not_lt.mpr (h d hd)]

/-- Witness for C7: a dynamic entry injected at depth 0 yields one critical
finding; an entry at depth 5 is skipped by `injClaim`. -/
theorem C7_checkInjectionDepth_witness :
    injClaim [⟨"x", true, none⟩]
      ⟨"x", "X", "hello", true, "user", some 1, some 5⟩ = none ∧
    checkInjectionDepth
      (some ⟨some [⟨"inj", "I", "\x7b\x7brandom\x7d\x7d", true, "user", some 1, some 0⟩],
             some [⟨"inj", true, none⟩], none⟩) ⟨none, none⟩ =
      [⟨"injection-depth-inj", "injection-depth", Severity.critical, "inj", "all",
        Meta.injection 0 1 true⟩] :=
  ⟨(C7_checkInjectionDepth_characterization [] [⟨"x", true, none⟩] none ⟨none, none⟩).2
    ⟨"x", "X", "hello", true, "user", some 1, some 5⟩ (Or.inr (Or.inr (by intro d hd; cases hd; decide))),
   by
    rw [(C7_checkInjectionDepth_characterization
      [⟨"inj", "I", "\x7b\x7brandom\x7d\x7d", true, "user", some 1, some 0⟩]
      [⟨"inj", true, none⟩] none ⟨none, none⟩).1]
    decide⟩

/-- Claim C8: `checkProviderSpecific` returns no findings for an absent or
unrecognized provider (no default is applied); for provider anthropic, more
than one enabled, in-sequence system-role prompt yields exactly one finding
(`info` when `squash_system_messages` is true, `warning` otherwise), and at
most one such prompt yields none. -/
theorem C8_checkProviderSpecific_dispatch :
    (∀ (prompts : List Prompt) (po : List OrderElem) (sq : Option Bool)
        (tokOpt : Option (String → Nat)),
      checkProviderSpecific (some ⟨some prompts, some po, sq⟩) ⟨none, tokOpt⟩ = []) ∧
    (∀ (prompts : List Prompt) (po : List OrderElem) (sq : Option Bool)
        (tokOpt : Option (String → Nat)) (s : String),
      s ∉ (["anthropic", "openai", "google"] : List String) →
      checkProviderSpecific (some ⟨some prompts, some po, sq⟩) ⟨some s, tokOpt⟩ = []) ∧
    (∀ (prompts : List Prompt) (po : List OrderElem) (sq : Option Bool)
        (tokOpt : Option (String → Nat)),
      (prompts.filter (fun p => p.enabled && p.role == "system" &&
        ((((getOrderArray po).filter (fun e => e.enabled)).map
          (fun e => e.identifier)).contains p.identifier))).length ≤ 1 →
      checkProviderSpecific (some ⟨some prompts, some po, sq⟩) ⟨some "anthropic", tokOpt⟩ = []) ∧
    (∀ (prompts : List Prompt) (po : List OrderElem) (sq : Option Bool)
        (tokOpt : Option (String → Nat)),
      1 < (prompts.filter (fun p => p.enabled && p.role == "system" &&
        ((((getOrderArray po).filter (fun e => e.enabled)).map
          (fun e => e.identifier)).contains p.identifier))).length →
      checkProviderSpecific (some ⟨some prompts, some po, sq⟩) ⟨some "anthropic", tokOpt⟩ =
        (if sq = some true then
          [⟨"provider-specific-anthropic-squash-on", "provider-specific", Severity.info, "all",
            "anthropic",
            Meta.anthropicSquash (prompts.filter (fun p => p.enabled && p.role == "system" &&
              ((((getOrderArray po).filter (fun e => e.enabled)).map
                (fun e => e.identifier)).contains p.identifier))).length true⟩]
         else
          [⟨"provider-specific-anthropic-squash-off", "provider-specific", Severity.warning, "all",
            "anthropic",
            Meta.anthropicSquash (prompts.filter (fun p => p.enabled && p.role == "system" &&
              ((((getOrderArray po).filter (fun e => e.enabled)).map
                (fun e => e.identifier)).contains p.identifier))).length false⟩])) := by
  refine ⟨fun prompts po sq tokOpt => rfl, ?_, ?_, ?_⟩
  · intro prompts po sq tokOpt s hs
    have h1 : ¬(s = "anthropic") := fun h => hs (by simp [h])
    have h2 : ¬(s = "openai") := fun h => hs (by simp [h])
    have h3 : ¬(s = "google") := fun h => hs (by simp [h])
    by_cases h0 : s = ""
    · subst h0
      rfl
    · simp [checkProviderSpecific, h0, h1, h2, h3]
  · intro prompts po sq tokOpt hle
    have hred : checkProviderSpecific (some ⟨some prompts, some po, sq⟩) ⟨some "anthropic", tokOpt⟩ =
        checkAnthropic prompts po sq ⟨some "anthropic", tokOpt⟩ := rfl
    rw [hred, checkAnthropic, if_neg (by omega)]
  · intro prompts po sq tokOpt hgt
    have hred : checkProviderSpecific (some ⟨some prompts, some po, sq⟩) ⟨some "anthropic", tokOpt⟩ =
        checkAnthropic prompts po sq ⟨some "anthropic", tokOpt⟩ := rfl
    rw [hred, checkAnthropic, if_pos hgt]

/-- Witness for C8: the unrecognized provider "mistral" yields no findings,
and end-to-end scenario C (two enabled system prompts with squashing on)
yields exactly one `info` finding. -/
theorem C8_checkProviderSpecific_witness :
    checkProviderSpecific (some ⟨some [], some [], none⟩) ⟨some "mistral", none⟩ = [] ∧
    checkProviderSpecific
      (some ⟨some [⟨"s1", "S1", "aaa", true, "system", none, none⟩,
                   ⟨"s2", "S2", "bbb", true, "system", none, none⟩],
             some [⟨"s1", true, none⟩, ⟨"s2", true, none⟩], some true⟩)
      ⟨some "anthropic", none⟩ =
      [⟨"provider-specific-anthropic-squash-on", "provider-specific", Severity.info, "all",
        "anthropic", Meta.anthropicSquash 2 true⟩] :=
  ⟨C8_checkProviderSpecific_dispatch.2.1 [] [] none none "mistral" (by decide),
   by
    rw [C8_checkProviderSpecific_dispatch.2.2.2
      [⟨"s1", "S1", "aaa", true, "system", none, none⟩,
       ⟨"s2", "S2", "bbb", true, "system", none, none⟩]
      [⟨"s1", true, none⟩, ⟨"s2", true, none⟩] (some true) none (by decide)]
    decide⟩

/-- Helper: the stable-prefix estimate of provider-specific.js equals the
tokenizer applied to the spec-side stable prefix. -/
lemma getStablePrefixTokens_eq_spec (prompts : List Prompt) (po : List OrderElem)
    (tok : String → Nat) :
    getStablePrefixTokens prompts po tok = tok (stablePrefixSpec prompts po) := by
  simp only [getStablePrefixTokens, stablePrefixSpec]
  refine congrArg tok (congrArg (String.intercalate "\n")
    (congrArg (fun f => List.filterMap f ((getOrderArray po).filter (fun e => e.enabled)))
      (funext fun e => ?_)))
  by_cases hv : isVolatile e.identifier (contentOf prompts e.identifier) = true
  · simp [hv]
  · have hv' : isVolatile e.identifier (contentOf prompts e.identifier) = false :=
      Bool.not_eq_true _ ▸ (by simpa using hv)
    by_cases hc : contentOf prompts e.identifier = ""
    · simp [hv', hc]
    · simp [hv', hc]

/-- Helper: the stable-prefix estimate inlined in token-thresholds.js
equals the tokenizer applied to the spec-side stable prefix. -/
lemma tokenThresholdsEstimate_eq_spec (prompts : List Prompt) (po : List OrderElem)
    (tok : String → Nat) :
    tokenThresholdsEstimate prompts po tok = tok (stablePrefixSpec prompts po) := by
  simp only [tokenThresholdsEstimate, stablePrefixSpec]
  refine congrArg tok (congrArg (String.intercalate "\n")
    (congrArg (fun f => List.filterMap f ((getOrderArray po).filter (fun e => e.enabled)))
      (funext fun e => ?_)))
  by_cases hv : isVolatile e.identifier (contentOf prompts e.identifier) = true
  · simp [hv]
  · have hv' : isVolatile e.identifier (contentOf prompts e.identifier) = false :=
      Bool.not_eq_true _ ▸ (by simpa using hv)
    by_cases hc : contentOf prompts e.identifier = ""
    · simp [hv', hc]
    · simp [hv', hc]

/-- Claim C9: the stable-prefix token estimate of provider-specific.js
(`getStablePrefixTokens`) and the estimate inlined in
`checkTokenThresholds` (`tokenThresholdsEstimate`) agree on every input,
and both equal the tokenizer applied to the spec's stable prefix
(newline-joined contents of the enabled, non-volatile, non-empty entries,
in order). -/
theorem C9_stable_estimates_agree (prompts : List Prompt) (po : List OrderElem)
    (tok : String → Nat) :
    tokenThresholdsEstimate prompts po tok = getStablePrefixTokens prompts po tok ∧
    getStablePrefixTokens prompts po tok = tok (stablePrefixSpec prompts po) :=
  ⟨(tokenThresholdsEstimate_eq_spec prompts po tok).trans
      (getStablePrefixTokens_eq_spec prompts po tok).symm,
    getStablePrefixTokens_eq_spec prompts po tok⟩

/-- Claim C10: with provider "openai" and the default tokenizer,
`checkProviderSpecific` emits the 128-token-alignment finding exactly when
the stable-prefix estimate is not a multiple of 128; when no enabled,
non-volatile entry has non-empty content, the estimate is 0 — an exact
multiple of 128 — and no finding at all is produced. -/
theorem C10_checkOpenAI_alignment (prompts : List Prompt) (po : List OrderElem)
    (sq : Option Bool) :
    (checkProviderSpecific (some ⟨some prompts, some po, sq⟩) ⟨some "openai", none⟩ ≠ [] ↔
      getStablePrefixTokens prompts po defaultTokenizer % 128 ≠ 0) ∧
    ((((getOrderArray po).filter (fun e => e.enabled)).filterMap (fun e =>
        if isVolatile e.identifier (contentOf prompts e.identifier) = false ∧
           contentOf prompts e.identifier ≠ "" then some (contentOf prompts e.identifier)
        else none)) = [] →
      getStablePrefixTokens prompts po defaultTokenizer = 0 ∧
      checkProviderSpecific (some ⟨some prompts, some po, sq⟩) ⟨some "openai", none⟩ = []) := by
  have hred : checkProviderSpecific (some ⟨some prompts, some po, sq⟩) ⟨some "openai", none⟩ =
      checkOpenAI prompts po ⟨some "openai", none⟩ := rfl
  have hiff : checkProviderSpecific (some ⟨some prompts, some po, sq⟩) ⟨some "openai", none⟩ ≠ [] ↔
      getStablePrefixTokens prompts po defaultTokenizer % 128 ≠ 0 := by
    rw [hred]
    simp only [checkOpenAI, Option.getD_none]
    by_cases hr : getStablePrefixTokens prompts po defaultTokenizer % 128 ≠ 0
    · rw [if_pos hr]
      simp [hr]
    · rw [if_neg hr]
      simp [hr]
  refine ⟨hiff, fun h => ?_⟩
  have hspec : stablePrefixSpec prompts po = "" := by
    simp only [stablePrefixSpec]
    rw [h]
    rfl
  have hest : getStablePrefixTokens prompts po defaultTokenizer = 0 := by
    rw [getStablePrefixTokens_eq_spec, hspec]
    rfl
  refine ⟨hest, ?_⟩
  by_contra hne
  exact (hiff.mp hne) (by simp [hest])

/-- Witness for C10: the empty preset has an empty stable prefix, estimate
0, and no openai alignment finding. -/
theorem C10_checkOpenAI_alignment_witness :
    getStablePrefixTokens [] [] defaultTokenizer = 0 ∧
    checkProviderSpecific (some ⟨some [], some [], none⟩) ⟨some "openai", none⟩ = [] :=
  (C10_checkOpenAI_alignment [] [] none).2 rfl
